import Mathlib

/-
Verification of the manifest-serving core of helm-charts-oci-proxy
(registry/manifest.go) against its natural-language specification.

The Go code is shallowly embedded: the mutex-guarded two-level map
`Manifests.manifests` becomes an association-list store threaded through the
handlers, the external `PrepareChart` collaborator becomes a function
parameter from stores to stores, bytes are `Nat` values below 256, and Go
runtime panics (index out of range, slice bounds out of range) become an
explicit `panic` outcome of the handler result type.
-/

set_option maxRecDepth 16384

namespace HelmOciProxy

/-! ## Go string and integer primitives used by manifest.go -/

/-- Split a character list at each occurrence of `sep`. -/
def splitChars (sep : Char) : List Char → List (List Char)
  | [] => [[]]
  | c :: cs =>
    if c = sep then [] :: splitChars sep cs
    else
      match splitChars sep cs with
      | [] => [[c]]
      | g :: gs => (c :: g) :: gs

/-- Semantics of Go `strings.Split(s, "/")`: split at each slash, yielding
`[""]` on the empty string and empty fields around adjacent slashes. -/
def goSplit (s : String) : List String :=
  (splitChars '/' s.data).map String.mk

/-- Strict lexicographic comparison of character lists by code point.  For
valid UTF-8 this coincides with Go's byte-wise string comparison, because
UTF-8 encoding preserves code-point order. -/
def ltChars : List Char → List Char → Bool
  | _, [] => false
  | [], _ :: _ => true
  | a :: as, b :: bs =>
    if a.toNat < b.toNat then true
    else if b.toNat < a.toNat then false
    else ltChars as bs

/-- Go `a < b` on strings. -/
def strLtB (a b : String) : Bool := ltChars a.data b.data

/-- Go `a <= b` on strings. -/
def strLeB (a b : String) : Bool := !(strLtB b a)

/-- Insert a string into a `strLeB`-sorted list, keeping it sorted. -/
def insertSorted (x : String) : List String → List String
  | [] => [x]
  | y :: ys => if strLeB x y then x :: y :: ys else y :: insertSorted x ys

/-- Ascending insertion sort of strings.  Go's `sort.Strings` is a
different algorithm, but the ascending reordering of a list under a total
order is unique as a list, so any correct sort denotes the same function. -/
def sortStrings (l : List String) : List String := l.foldr insertSorted []

/-- Whether the character list `p` occurs at the start of `s`. -/
def startsWithL : List Char → List Char → Bool
  | _, [] => true
  | [], _ :: _ => false
  | a :: s, b :: p => a == b && startsWithL s p

/-- Whether the character list `p` occurs as a contiguous run anywhere in
`s`. -/
def containsL : List Char → List Char → Bool
  | [], p => startsWithL [] p
  | a :: s, p => startsWithL (a :: s) p || containsL s p

/-- Semantics of Go `strings.Contains(s, pat)` for an ASCII pattern (byte
search and character search agree because ASCII bytes never occur inside a
multi-byte UTF-8 sequence). -/
def strContains (s pat : String) : Bool := containsL s.data pat.data

/-- Decimal digit value of a character, `none` on anything outside 0-9. -/
def digitVal (c : Char) : Option Nat :=
  if 48 ≤ c.toNat ∧ c.toNat ≤ 57 then some (c.toNat - 48) else none

/-- Accumulate a decimal digit string into a natural number; `none` as soon
as a non-digit appears. -/
def digitsToNatAux : List Char → Nat → Option Nat
  | [], acc => some acc
  | c :: cs, acc =>
    match digitVal c with
    | none => none
    | some d => digitsToNatAux cs (acc * 10 + d)

/-- Semantics of Go `strconv.Atoi` on a 64-bit platform, returning the pair
(value, ok).  A syntax error (empty string, bare sign, or any non-digit)
yields `(0, false)`; a value outside the int64 range yields the clamped
bound together with `false` (Go's ErrRange case); otherwise the exact value
with `true`. -/
def goAtoi (s : String) : Int × Bool :=
  let cs := s.data
  let signed : Bool × List Char :=
    match cs with
    | c :: rest => if c = '-' then (true, rest) else if c = '+' then (false, rest) else (false, cs)
    | [] => (false, [])
  match signed.2 with
  | [] => (0, false)
  | d :: ds =>
    match digitsToNatAux (d :: ds) 0 with
    | none => (0, false)
    | some v =>
      if signed.1 then
        if v > 9223372036854775808 then (-9223372036854775808, false) else (-(v : Int), true)
      else
        if v ≥ 9223372036854775808 then (9223372036854775807, false) else ((v : Int), true)

/-- Semantics of the Go slice expression `l[:n]` on a slice whose length
equals its capacity bound relevance: the handler only evaluates it under
`n < len(l)`, where Go panics exactly when `n` is negative. -/
def goSliceTo (l : List String) (n : Int) : Option (List String) :=
  if 0 ≤ n then some (l.take n.toNat) else none

/-! ## SHA-256 (crypto/sha256) over byte lists -/

/-- Reduce to a 32-bit word. -/
def w32 (n : Nat) : Nat := n % 4294967296

/-- Right rotation of a 32-bit word by `n` bits. -/
def rotWord (n x : Nat) : Nat := w32 ((x <<< (32 - n)) ||| (x >>> n))

/-- Bitwise complement of a 32-bit word. -/
def not32 (x : Nat) : Nat := x ^^^ 4294967295

def ch32 (x y z : Nat) : Nat := (x &&& y) ^^^ (not32 x &&& z)

def maj32 (x y z : Nat) : Nat := (x &&& y) ^^^ (x &&& z) ^^^ (y &&& z)

def sumA (x : Nat) : Nat := rotWord 2 x ^^^ rotWord 13 x ^^^ rotWord 22 x

def sumE (x : Nat) : Nat := rotWord 6 x ^^^ rotWord 11 x ^^^ rotWord 25 x

def sigLow (x : Nat) : Nat := rotWord 7 x ^^^ rotWord 18 x ^^^ (x >>> 3)

def sigHigh (x : Nat) : Nat := rotWord 17 x ^^^ rotWord 19 x ^^^ (x >>> 10)

/-- The 64 SHA-256 round constants (FIPS 180-4), written in decimal. -/
def sha256K : List Nat :=
  [1116352408, 1899447441, 3049323471, 3921009573, 961987163, 1508970993,
   2453635748, 2870763221, 3624381080, 310598401, 607225278, 1426881987,
   1925078388, 2162078206, 2614888103, 3248222580, 3835390401, 4022224774,
   264347078, 604807628, 770255983, 1249150122, 1555081692, 1996064986,
   2554220882, 2821834349, 2952996808, 3210313671, 3336571891, 3584528711,
   113926993, 338241895, 666307205, 773529912, 1294757372, 1396182291,
   1695183700, 1986661051, 2177026350, 2456956037, 2730485921, 2820302411,
   3259730800, 3345764771, 3516065817, 3600352804, 4094571909, 275423344,
   430227734, 506948616, 659060556, 883997877, 958139571, 1322822218,
   1537002063, 1747873779, 1955562222, 2024104815, 2227730452, 2361852424,
   2428436474, 2756734187, 3204031479, 3329325298]

/-- The initial SHA-256 hash state (FIPS 180-4), written in decimal. -/
def sha256Init : List Nat :=
  [1779033703, 3144134277, 1013904242, 2773480762,
   1359893119, 2600822924, 528734635, 1541459225]

/-- The `k` most significant bytes of `n`, big-endian. -/
def beBytes : Nat → Nat → List Nat
  | 0, _ => []
  | k + 1, n => beBytes k (n >>> 8) ++ [n % 256]

/-- SHA-256 padding: append 0x80, zeros to 56 mod 64, then the 64-bit
big-endian bit length. -/
def sha256Pad (msg : List Nat) : List Nat :=
  let z := (119 - msg.length % 64) % 64
  msg ++ (128 :: List.replicate z 0) ++ beBytes 8 (msg.length * 8)

/-- Group big-endian bytes into 32-bit words. -/
def bytesToWords : List Nat → List Nat
  | a :: b :: c :: d :: rest => (((a * 256 + b) * 256 + c) * 256 + d) :: bytesToWords rest
  | _ => []

/-- Split a byte list into 64-byte blocks, with structural fuel so that the
kernel can evaluate it (the fuel is an upper bound on the block count). -/
def chunks64Aux : Nat → List Nat → List (List Nat)
  | 0, _ => []
  | fuel + 1, l => if l.length = 0 then [] else l.take 64 :: chunks64Aux fuel (l.drop 64)

/-- Split a byte list into 64-byte blocks. -/
def chunks64 (l : List Nat) : List (List Nat) := chunks64Aux l.length l

/-- Extend the 16 message-schedule words by `fuel` further words. -/
def sha256ExtendAux : List Nat → Nat → List Nat
  | w, 0 => w
  | w, f + 1 =>
    let n := w.length
    let nw := w32 (sigHigh (w.getD (n - 2) 0) + w.getD (n - 7) 0 +
      sigLow (w.getD (n - 15) 0) + w.getD (n - 16) 0)
    sha256ExtendAux (w ++ [nw]) f

/-- The 64-word message schedule of one block. -/
def sha256Schedule (block : List Nat) : List Nat :=
  sha256ExtendAux (bytesToWords block) 48

/-- One SHA-256 compression round on the eight-word working state. -/
def sha256Round (st : List Nat) (k w : Nat) : List Nat :=
  match st with
  | [a, b, c, d, e, f, g, h] =>
    let t1 := w32 (h + sumE e + ch32 e f g + k + w)
    let t2 := w32 (sumA a + maj32 a b c)
    [w32 (t1 + t2), a, b, c, w32 (d + t1), e, f, g]
  | other => other

/-- Compress one 64-byte block into the hash state. -/
def sha256Compress (st : List Nat) (block : List Nat) : List Nat :=
  let fin := (sha256K.zip (sha256Schedule block)).foldl
    (fun s kw => sha256Round s kw.1 kw.2) st
  (st.zip fin).map (fun p => w32 (p.1 + p.2))

/-- SHA-256 digest of a byte list, as 32 bytes. -/
def sha256Bytes (msg : List Nat) : List Nat :=
  (((chunks64 (sha256Pad msg)).foldl sha256Compress sha256Init).map (beBytes 4)).flatten

/-- Lowercase hexadecimal digit. -/
def hexDigit (n : Nat) : Char :=
  if n < 10 then Char.ofNat (48 + n) else Char.ofNat (87 + n)

/-- Lowercase hexadecimal encoding of a byte list, as Go
`encoding/hex.EncodeToString`. -/
def hexEncode (bs : List Nat) : String :=
  String.mk ((bs.map (fun b => [hexDigit (b / 16), hexDigit (b % 16)])).flatten)

/-- Hex-encoded SHA-256 digest, matching
`hex.EncodeToString(sha256.Sum256(b))`. -/
def sha256Hex (msg : List Nat) : String := hexEncode (sha256Bytes msg)

example : sha256Hex [] = "e3b0c44298fc1c149afbf4c8996fb92427ae41e4649b934ca495991b7852b855" := by
  decide

example : sha256Hex [97, 98, 99] =
    "ba7816bf8f01cfea414140de5dae2223b00361a396177a9cb410ff61f20015ad" := by
  decide

/-! ## Data model (registry/manifest.go types) -/

/-- The Go struct `Manifest`: the stored record for one reference.
`createdAt` is an abstract tick standing in for `time.Time`. -/
structure GoManifest where
  contentType : String
  blob : List Nat
  refs : List String
  createdAt : Nat
deriving DecidableEq

/-- One repository's table, mapping tag-or-digest to its record: the inner
level of `Manifests.manifests`.  Go map key uniqueness corresponds to key
uniqueness of the association list; lookups take the first match. -/
def RepoTable : Type := List (String × GoManifest)

/-- The whole store `Manifests.manifests`, mapping repository name to its
reference table. -/
def Store : Type := List (String × RepoTable)

instance : DecidableEq RepoTable := by
  unfold RepoTable
  infer_instance

instance : DecidableEq Store := by
  unfold Store
  infer_instance

/-- First-match association-list lookup, the Go map read `m[k]` paired with
its `ok` flag as an `Option`. -/
def lookupA {α : Type} (l : List (String × α)) (k : String) : Option α :=
  (l.find? (fun p => p.1 == k)).map Prod.snd

/-- The Go struct `regError`. -/
structure RegError where
  status : Nat
  code : String
  message : String
deriving DecidableEq

/-- The error built at manifest.go:102 and :143. -/
def invalidParamsErr : RegError :=
  { status := 400, code := "INVALID PARAMS", message := "No chart name specified" }

/-- The error built at manifest.go:123, :164 and :206. -/
def notFoundErr : RegError :=
  { status := 404, code := "NOT FOUND", message := "Chart prepare error" }

/-- The error built at manifest.go:180, :258 and :298. -/
def methodUnknownErr : RegError :=
  { status := 400, code := "METHOD_UNKNOWN", message := "We don't understand your method + url" }

/-- The error built at manifest.go:236.  The Go message interpolates the
`strconv` error text after the fixed part; no claim inspects the suffix, so
it is kept abstract here. -/
def badRequestErr : RegError :=
  { status := 400, code := "BAD_REQUEST", message := "parsing n: strconv error" }

/-- The external collaborator `registry.PrepareChart(ctx, ns, name, ref)`:
given namespace, name and reference it transforms the store and optionally
fails.  Mutation-then-failure is representable, matching a Go method that
writes before returning an error. -/
def PrepFn : Type := String → String → String → Store → Store × Option RegError

/-- Response of a successful manifest GET or HEAD: the headers set at
manifest.go:132-134 (resp. 173-175), the written status, and the body blob
for GET. -/
structure ManifestResponse where
  status : Nat
  dockerContentDigest : String
  contentType : String
  contentLength : String
  body : Option (List Nat)
deriving DecidableEq

/-- Result of one manifest-endpoint request: a `regError`, a served
response, or a Go runtime panic. -/
inductive MOutcome where
  | err (e : RegError)
  | ok (r : ManifestResponse)
  | panic
deriving DecidableEq

/-- Whether a manifest outcome is a served 200 response. -/
def MOutcome.isOk : MOutcome → Bool
  | .ok _ => true
  | _ => false

/-- The tags-endpoint response body `listTags` with its written status. -/
structure TagsResponse where
  status : Nat
  name : String
  tags : List String
deriving DecidableEq

/-- Result of one tags request. -/
inductive TOutcome where
  | err (e : RegError)
  | ok (r : TagsResponse)
  | panic
deriving DecidableEq

/-- The catalog response body `Catalog` with its written status. -/
structure CatalogResponse where
  status : Nat
  repos : List String
deriving DecidableEq

/-- Result of one catalog request. -/
inductive COutcome where
  | err (e : RegError)
  | ok (r : CatalogResponse)
deriving DecidableEq

/-! ## Path decomposition (manifest.go:88-92 and :189-192) -/

/-- The segments `elem` after `strings.Split(path, "/")` and `elem[1:]`. -/
def pathElems (path : String) : List String := (goSplit path).drop 1

/-- The reference `target := elem[len(elem)-1]`. -/
def pathTarget (path : String) : String := (pathElems path).getLastD ""

/-- The repository name `repo := strings.Join(elem[1:len(elem)-2], "/")`. -/
def pathRepo (path : String) : String :=
  let e := pathElems path
  String.intercalate "/" ((e.drop 1).take (e.length - 3))

/-- The first component `hostnameParts[0]` of the repository name. -/
def hostPart0 (path : String) : String := (goSplit (pathRepo path)).getD 0 ""

/-- The second component `hostnameParts[1]` of the repository name; the Go
indexing expression panics when it does not exist, which the handlers model
with an explicit length test at each evaluation site. -/
def hostPart1 (path : String) : String := (goSplit (pathRepo path)).getD 1 ""

/-! ## Manifest endpoint handler (manifest.go:87-186)

Each handler returns the outcome, the final store, and the number of
`PrepareChart` invocations made. -/

/-- Headers and body written on the GET success path (manifest.go:130-137):
the digest is recomputed from the stored blob on every request. -/
def serveGet (ma : GoManifest) : ManifestResponse :=
  { status := 200
    dockerContentDigest := "sha256:" ++ sha256Hex ma.blob
    contentType := ma.contentType
    contentLength := Nat.repr ma.blob.length
    body := some ma.blob }

/-- Headers written on the HEAD success path (manifest.go:171-177): same as
GET but no body. -/
def serveHead (ma : GoManifest) : ManifestResponse :=
  { status := 200
    dockerContentDigest := "sha256:" ++ sha256Hex ma.blob
    contentType := ma.contentType
    contentLength := Nat.repr ma.blob.length
    body := none }

/-- The GET arm of `Manifests.handle` (manifest.go:95-137).  The Go local
`c` is read from the map once, before any `PrepareChart` call: when the
repository is absent, `c` is the nil map and every later `c[target]` lookup
misses no matter what the Preparer inserted; when the repository is present,
`c` aliases the live inner map, which — for a Preparer that inserts entries
in place, as the collaborator contract specifies — is the current store's
table at `repo`.  The retry branch evaluates `hostnameParts[1]` before
calling the Preparer, so a single-component repository name that is already
cached panics there. -/
def handleGet (prep : PrepFn) (st : Store) (path : String) : MOutcome × Store × Nat :=
  match lookupA st (pathRepo path) with
  | none =>
    if (goSplit (pathRepo path)).length < 2 then (.err invalidParamsErr, st, 0)
    else
      match prep (hostPart0 path) (hostPart1 path) (pathTarget path) st with
      | (s1, some e) => (.err e, s1, 1)
      | (s1, none) =>
        match prep (hostPart0 path) (hostPart1 path) (pathTarget path) s1 with
        | (s2, some e) => (.err e, s2, 2)
        | (s2, none) => (.err notFoundErr, s2, 2)
  | some c0 =>
    match lookupA c0 (pathTarget path) with
    | some ma => (.ok (serveGet ma), st, 0)
    | none =>
      if (goSplit (pathRepo path)).length < 2 then (.panic, st, 0)
      else
        match prep (hostPart0 path) (hostPart1 path) (pathTarget path) st with
        | (s1, some e) => (.err e, s1, 1)
        | (s1, none) =>
          match lookupA ((lookupA s1 (pathRepo path)).getD []) (pathTarget path) with
          | some ma => (.ok (serveGet ma), s1, 1)
          | none => (.err notFoundErr, s1, 1)

/-- The lookup-retry-serve tail of the HEAD arm (manifest.go:155-177),
entered with `k` Preparer invocations already made.  Unlike GET, every
lookup re-reads `m.manifests[repo][target]` from the current store; a
missing repository reads as the nil map.  The retry evaluates
`hostnameParts[1]` before calling the Preparer, so a single-component
repository name panics there. -/
def headServe (prep : PrepFn) (path : String) (s : Store) (k : Nat) : MOutcome × Store × Nat :=
  match lookupA ((lookupA s (pathRepo path)).getD []) (pathTarget path) with
  | some ma => (.ok (serveHead ma), s, k)
  | none =>
    if (goSplit (pathRepo path)).length < 2 then (.panic, s, k)
    else
      match prep (hostPart0 path) (hostPart1 path) (pathTarget path) s with
      | (s2, some e) => (.err e, s2, k + 1)
      | (s2, none) =>
        match lookupA ((lookupA s2 (pathRepo path)).getD []) (pathTarget path) with
        | some ma => (.ok (serveHead ma), s2, k + 1)
        | none => (.err notFoundErr, s2, k + 1)

/-- The HEAD arm of `Manifests.handle` (manifest.go:139-177). -/
def handleHead (prep : PrepFn) (st : Store) (path : String) : MOutcome × Store × Nat :=
  match lookupA st (pathRepo path) with
  | none =>
    if (goSplit (pathRepo path)).length < 2 then (.err invalidParamsErr, st, 0)
    else
      match prep (hostPart0 path) (hostPart1 path) (pathTarget path) st with
      | (s1, some e) => (.err e, s1, 1)
      | (s1, none) => headServe prep path s1 1
  | some _ => headServe prep path st 0

/-- The method dispatch of `Manifests.handle` (manifest.go:94, :179-185). -/
def Manifests.handle (prep : PrepFn) (st : Store) (method path : String) :
    MOutcome × Store × Nat :=
  if method = "GET" then handleGet prep st path
  else if method = "HEAD" then handleHead prep st path
  else (.err methodUnknownErr, st, 0)

/-! ## Tag listing handler (manifest.go:188-263) -/

/-- Tag collection and sort (manifest.go:214-220): reference-table keys not
containing the substring `"sha256:"`, sorted ascending. -/
def collectTags (c : RepoTable) : List String :=
  sortStrings ((c.map Prod.fst).filter (fun t => !(strContains t "sha256:")))

/-- Index of the first list element satisfying `p`, as the Go
`for i, t := range tags` search does. -/
def findFirstIdx (p : String → Bool) : List String → Option Nat
  | [] => none
  | a :: l => if p a then some 0 else (findFirstIdx p l).map (· + 1)

/-- The `last` cursor step (manifest.go:224-231): on the first tag strictly
greater than `last` the list is cut to the suffix starting there; when no
tag is greater the loop falls through and the list is left unchanged. -/
def lastCut (tags : List String) (la : String) : List String :=
  match findFirstIdx (fun t => strLtB la t) tags with
  | some i => tags.drop i
  | none => tags

/-- The tag sequence after the `last` query step, which runs only for a
non-empty `last` parameter. -/
def tagsAfterLast (c : RepoTable) (lastQ : String) : List String :=
  if lastQ ≠ "" then lastCut (collectTags c) lastQ else collectTags c

/-- The `n` limit step and response write (manifest.go:234-255), entered on
repository table `c` with the post-Preparer store `s1` and `k` Preparer
invocations made.  An unparsable `n` is a 400; a parsed `n` below the
sequence length is applied as the Go slice `tags[:n]`, which panics for
negative `n`. -/
def tagsPage (repo : String) (c : RepoTable) (lastQ nQ : String) (s1 : Store) (k : Nat) :
    TOutcome × Store × Nat :=
  if nQ ≠ "" then
    match goAtoi nQ with
    | (_, false) => (.err badRequestErr, s1, k)
    | (n, true) =>
      if n < ((tagsAfterLast c lastQ).length : Int) then
        match goSliceTo (tagsAfterLast c lastQ) n with
        | some ts => (.ok { status := 200, name := repo, tags := ts }, s1, k)
        | none => (.panic, s1, k)
      else (.ok { status := 200, name := repo, tags := tagsAfterLast c lastQ }, s1, k)
  else (.ok { status := 200, name := repo, tags := tagsAfterLast c lastQ }, s1, k)

/-- `Manifests.handleTags` (manifest.go:188-263).  The Preparer call at
line 198 is unconditional and evaluates `hostnameParts[1]` with no length
guard: a repository name with fewer than two components panics before the
Preparer runs.  `lastQ` and `nQ` are the `last` and `n` query parameters,
with `""` for an absent parameter as Go's `Query().Get` returns. -/
def Manifests.handleTags (prep : PrepFn) (st : Store) (method path lastQ nQ : String) :
    TOutcome × Store × Nat :=
  if method = "GET" then
    if (goSplit (pathRepo path)).length < 2 then (.panic, st, 0)
    else
      match prep (hostPart0 path) (hostPart1 path) "" st with
      | (s1, some e) => (.err e, s1, 1)
      | (s1, none) =>
        match lookupA s1 (pathRepo path) with
        | none => (.err notFoundErr, s1, 1)
        | some c => tagsPage (pathRepo path) c lastQ nQ s1 1
  else (.err methodUnknownErr, st, 0)

/-! ## Catalog handler (manifest.go:265-303) -/

/-- The collection loop of `handleCatalog` (manifest.go:277-286): iterate
the store's repository keys, stopping as soon as `countRepos >= n`. -/
def catalogLoop (keys : List String) (n : Int) (countRepos : Nat) : List String :=
  match keys with
  | [] => []
  | k :: ks => if (countRepos : Int) ≥ n then [] else k :: catalogLoop ks n (countRepos + 1)

/-- `Manifests.handleCatalog` (manifest.go:265-303).  The cap is 10000 when
`n` is absent; when `n` is present, `n, _ = strconv.Atoi(nStr)` keeps
whatever Atoi returned, errors discarded.  The catalog never calls the
Preparer and never mutates the store. -/
def Manifests.handleCatalog (st : Store) (method nQ : String) : COutcome × Store :=
  if method = "GET" then
    (.ok { status := 200,
           repos := catalogLoop (st.map Prod.fst)
             (if nQ ≠ "" then (goAtoi nQ).1 else 10000) 0 }, st)
  else (.err methodUnknownErr, st)

/-! ## Sample data for concrete evaluations -/

/-- A concrete stored record used by the concrete evaluations. -/
def sampleManifest : GoManifest :=
  { contentType := "application/vnd.oci.image.manifest.v1+json"
    blob := [1, 2, 3]
    refs := []
    createdAt := 0 }

/-- A Preparer that succeeds without touching the store. -/
def prepNone : PrepFn := fun _ _ _ st => (st, none)

/-- A Preparer that inserts `sampleManifest` under the requested
namespace/name repository and reference and succeeds. -/
def prepInsertSample : PrepFn := fun ns name ref st =>
  ((ns ++ "/" ++ name, [(ref, sampleManifest)]) :: st, none)

/-! ## Order lemmas for the embedded string comparison -/

theorem ltChars_asymm : ∀ a b, ltChars a b = true → ltChars b a = false := by
  intro a
  induction a with
  | nil =>
    intro b h
    cases b with
    | nil => exact absurd h (by simp [ltChars])
    | cons y ys => simp [ltChars]
  | cons x xs ih =>
    intro b h
    cases b with
    | nil => exact absurd h (by simp [ltChars])
    | cons y ys =>
      by_cases hxy : x.toNat < y.toNat
      · have hyx : ¬ y.toNat < x.toNat := by omega
        simp [ltChars, hxy, hyx]
      · by_cases hyx : y.toNat < x.toNat
        · simp [ltChars, hxy, hyx] at h
        · simp only [ltChars, if_neg hxy, if_neg hyx] at h
          simp only [ltChars, if_neg hxy, if_neg hyx]
          exact ih ys h

theorem strLeB_of_not (x y : String) (h : strLeB x y = false) : strLeB y x = true := by
  unfold strLeB strLtB at h ⊢
  have h1 : ltChars y.data x.data = true := by
    cases heq : ltChars y.data x.data with
    | true => rfl
    | false => rw [heq] at h; simp at h
  rw [ltChars_asymm _ _ h1]
  rfl

theorem ltChars_dichotomy : ∀ c a b, ltChars c a = true →
    ltChars c b = true ∨ ltChars b a = true := by
  intro c
  induction c with
  | nil =>
    intro a b h
    cases a with
    | nil => exact absurd h (by simp [ltChars])
    | cons y ys =>
      cases b with
      | nil => right; simp [ltChars]
      | cons z bs => left; simp [ltChars]
  | cons x cs ih =>
    intro a b h
    cases a with
    | nil => exact absurd h (by simp [ltChars])
    | cons y ys =>
      cases b with
      | nil => right; simp [ltChars]
      | cons z bs =>
        by_cases hxz : x.toNat < z.toNat
        · left; simp [ltChars, hxz]
        · by_cases hzx : z.toNat < x.toNat
          · right
            have hzy : z.toNat < y.toNat := by
              by_cases hxy : x.toNat < y.toNat
              · omega
              · by_cases hyx : y.toNat < x.toNat
                · simp [ltChars, hxy, hyx] at h
                · omega
            simp [ltChars, hzy]
          · have hxzeq : x.toNat = z.toNat := by omega
            by_cases hxy : x.toNat < y.toNat
            · right; simp [ltChars, show z.toNat < y.toNat by omega]
            · by_cases hyx : y.toNat < x.toNat
              · simp [ltChars, hxy, hyx] at h
              · simp only [ltChars, if_neg hxy, if_neg hyx] at h
                rcases ih ys bs h with h1 | h1
                · left
                  simp only [ltChars, if_neg hxz, if_neg hzx]
                  exact h1
                · right
                  have hzy : ¬ z.toNat < y.toNat := by omega
                  have hyz : ¬ y.toNat < z.toNat := by omega
                  simp only [ltChars, if_neg hzy, if_neg hyz]
                  exact h1

theorem strLeB_trans {a b c : String} (h1 : strLeB a b = true) (h2 : strLeB b c = true) :
    strLeB a c = true := by
  unfold strLeB strLtB at h1 h2 ⊢
  simp only [Bool.not_eq_true'] at h1 h2 ⊢
  cases hca : ltChars c.data a.data with
  | false => rfl
  | true =>
    rcases ltChars_dichotomy c.data a.data b.data hca with h | h
    · rw [h2] at h; exact absurd h (by simp)
    · rw [h1] at h; exact absurd h (by simp)

/-! ## Insertion sort lemmas -/

theorem insertSorted_perm (x : String) (l : List String) :
    (insertSorted x l).Perm (x :: l) := by
  induction l with
  | nil => exact List.Perm.refl _
  | cons y ys ih =>
    by_cases h : strLeB x y = true
    · simp only [insertSorted, if_pos h]
      exact List.Perm.refl _
    · simp only [insertSorted, if_neg h]
      exact (ih.cons y).trans (List.Perm.swap x y ys)

theorem sortStrings_perm (l : List String) : (sortStrings l).Perm l := by
  induction l with
  | nil => exact List.Perm.refl _
  | cons x xs ih =>
    have : sortStrings (x :: xs) = insertSorted x (sortStrings xs) := rfl
    rw [this]
    exact (insertSorted_perm x (sortStrings xs)).trans (ih.cons x)

theorem insertSorted_pairwise (x : String) (l : List String)
    (h : l.Pairwise (fun a b => strLeB a b = true)) :
    (insertSorted x l).Pairwise (fun a b => strLeB a b = true) := by
  induction l with
  | nil => simp [insertSorted]
  | cons y ys ih =>
    rcases List.pairwise_cons.mp h with ⟨hy, hys⟩
    by_cases hxy : strLeB x y = true
    · simp only [insertSorted, if_pos hxy]
      refine List.pairwise_cons.mpr ⟨?_, h⟩
      intro z hz
      rcases List.mem_cons.mp hz with rfl | hz
      · exact hxy
      · exact strLeB_trans hxy (hy z hz)
    · simp only [insertSorted, if_neg hxy]
      refine List.pairwise_cons.mpr ⟨?_, ih hys⟩
      intro z hz
      have hz2 : z ∈ x :: ys := (insertSorted_perm x ys).mem_iff.mp hz
      rcases List.mem_cons.mp hz2 with rfl | hz3
      · exact strLeB_of_not z y (by simpa using hxy)
      · exact hy z hz3

theorem sortStrings_pairwise (l : List String) :
    (sortStrings l).Pairwise (fun a b => strLeB a b = true) := by
  induction l with
  | nil => simp [sortStrings]
  | cons x xs ih => exact insertSorted_pairwise x (sortStrings xs) ih

/-! ## Characterizations of the pagination steps -/

theorem findFirstIdx_some_any (p : String → Bool) :
    ∀ (l : List String) (i : Nat), findFirstIdx p l = some i → l.any p = true := by
  intro l
  induction l with
  | nil =>
    intro i h
    simp [findFirstIdx] at h
  | cons b bs ih =>
    intro i h
    by_cases hb : p b = true
    · simp [List.any_cons, hb]
    · have hbf : p b = false := by simpa using hb
      simp only [findFirstIdx, hbf, Bool.false_eq_true, if_false] at h
      cases hv : findFirstIdx p bs with
      | none =>
        rw [hv] at h
        simp at h
      | some j => simp [List.any_cons, ih j hv]

theorem findFirstIdx_eq_none (p : String → Bool) :
    ∀ l : List String, findFirstIdx p l = none → ∀ u ∈ l, p u = false := by
  intro l
  induction l with
  | nil =>
    intro _ u hu
    exact absurd hu (List.not_mem_nil u)
  | cons b bs ih =>
    intro h u hu
    by_cases hb : p b = true
    · simp [findFirstIdx, hb] at h
    · have hbf : p b = false := by simpa using hb
      rcases List.mem_cons.mp hu with rfl | hu2
      · exact hbf
      · refine ih ?_ u hu2
        simp only [findFirstIdx, hbf, Bool.false_eq_true, if_false] at h
        cases hv : findFirstIdx p bs with
        | none => rfl
        | some j =>
          rw [hv] at h
          simp at h

/-- The `last` loop drops exactly the longest prefix of tags not strictly
greater than `last` when some tag is strictly greater, and leaves the list
unchanged otherwise. -/
theorem lastCut_eq (l : List String) (la : String) :
    lastCut l la =
      if l.any (fun t => strLtB la t) then l.dropWhile (fun t => strLeB t la) else l := by
  induction l with
  | nil => simp [lastCut, findFirstIdx]
  | cons a l ih =>
    by_cases h : strLtB la a = true
    · have hle : strLeB a la = false := by
        unfold strLeB
        simp [h]
      simp [lastCut, findFirstIdx, h, List.any_cons, List.dropWhile_cons, hle]
    · have hfalse : strLtB la a = false := by
        cases hv : strLtB la a with
        | true => exact absurd hv h
        | false => rfl
      have hle : strLeB a la = true := by
        unfold strLeB
        simp [hfalse]
      have hany : (a :: l).any (fun t => strLtB la t) = l.any (fun t => strLtB la t) := by
        simp [List.any_cons, hfalse]
      have hdrop : (a :: l).dropWhile (fun t => strLeB t la) =
          l.dropWhile (fun t => strLeB t la) := by
        simp [List.dropWhile_cons, hle]
      unfold lastCut
      simp only [findFirstIdx, hfalse, Bool.false_eq_true, if_false]
      cases hfind : findFirstIdx (fun t => strLtB la t) l with
      | none =>
        have hanyl : l.any (fun t => strLtB la t) = false := by
          cases hv : l.any (fun t => strLtB la t) with
          | false => rfl
          | true =>
            rcases List.any_eq_true.mp hv with ⟨t, ht, hpt⟩
            have hf : strLtB la t = false :=
              findFirstIdx_eq_none (fun t => strLtB la t) l hfind t ht
            rw [hf] at hpt
            exact absurd hpt (by simp)
        simp [hany, hanyl]
      | some i =>
        have hihl : lastCut l la = l.drop i := by
          unfold lastCut
          rw [hfind]
        have hanyl : l.any (fun t => strLtB la t) = true :=
          findFirstIdx_some_any (fun t => strLtB la t) l i hfind
        rw [ih, hanyl, if_pos rfl] at hihl
        simp only [Option.map_some']
        rw [List.drop_succ_cons, hany, hanyl, if_pos rfl, hdrop, ← hihl]

/-- The catalog collection loop takes the first `n - countRepos` keys. -/
theorem catalogLoop_eq (keys : List String) (n : Int) :
    ∀ cnt, catalogLoop keys n cnt = keys.take (n - cnt).toNat := by
  induction keys with
  | nil => intro cnt; simp [catalogLoop]
  | cons k ks ih =>
    intro cnt
    by_cases h : (cnt : Int) ≥ n
    · have h0 : (n - cnt).toNat = 0 := by omega
      simp [catalogLoop, h, h0]
    · have h1 : (n - cnt).toNat = (n - (cnt + 1)).toNat + 1 := by omega
      simp only [catalogLoop, if_neg h, h1, List.take_succ_cons]
      rw [ih (cnt + 1)]
      push_cast
      ring_nf

/-- Reduction of `handleTags` on the populated path: GET method, a
two-component repository name, a successful Preparer call, and the
repository present afterwards. -/
theorem handleTags_populated (prep : PrepFn) (st : Store) (path lastQ nQ : String)
    (c : RepoTable)
    (hparts : ¬ (goSplit (pathRepo path)).length < 2)
    (hprep : (prep (hostPart0 path) (hostPart1 path) "" st).2 = none)
    (hc : lookupA (prep (hostPart0 path) (hostPart1 path) "" st).1 (pathRepo path) = some c) :
    Manifests.handleTags prep st "GET" path lastQ nQ =
      tagsPage (pathRepo path) c lastQ nQ
        (prep (hostPart0 path) (hostPart1 path) "" st).1 1 := by
  unfold Manifests.handleTags
  rw [if_pos rfl, if_neg hparts]
  rcases hp : prep (hostPart0 path) (hostPart1 path) "" st with ⟨s1, o1⟩
  rw [hp] at hprep hc
  simp only at hprep hc
  subst hprep
  simp only [hc]

/-- A manifest outcome with the body removed: what HEAD serves when GET
serves the same record. -/
def stripBody : MOutcome → MOutcome
  | .ok r => .ok { r with body := none }
  | o => o

/-! ## Claims -/

/-- C1: the claim says a GET on an initially absent repository whose
Preparer run succeeds and inserts the requested reference returns 200 with
the inserted blob.  The code captures the Go map value `c` before calling
`PrepareChart`, so for an absent repository `c` stays nil and both lookups
miss: the handler invokes the Preparer twice and returns 404 even though
the final store holds the requested reference.  (The claim's other half —
a succeeding but non-inserting Preparer yields 404 after one retried
lookup — is what the code then does in every absent-repository case: see
the last conjunct, where the Preparer leaves the store empty.) -/
theorem c1_get_absent_repo_404_despite_insert :
    Manifests.handle prepInsertSample [] "GET" "/v2/ns/chart/manifests/latest" =
      (.err notFoundErr,
       [("ns/chart", [("latest", sampleManifest)]),
        ("ns/chart", [("latest", sampleManifest)])], 2) ∧
    lookupA ((lookupA (Manifests.handle prepInsertSample []
        "GET" "/v2/ns/chart/manifests/latest").2.1 "ns/chart").getD [])
      "latest" = some sampleManifest ∧
    Manifests.handle prepNone [] "GET" "/v2/ns/chart/manifests/latest" =
      (.err notFoundErr, [], 2) := by
  decide

/-- C2 counterexample: at the same path, store and Preparer, the GET branch
returns an error while the HEAD branch serves 200, so the two branches do
not produce the same result. -/
theorem c2_cx_get_head_differ :
    (Manifests.handle prepInsertSample [] "GET" "/v2/acme/app/manifests/v1").1.isOk = false ∧
    (Manifests.handle prepInsertSample [] "HEAD" "/v2/acme/app/manifests/v1").1.isOk = true := by
  decide

/-- C2 amended: whenever the repository is initially present in the store,
the GET and HEAD branches agree on outcome (same error, or same status,
digest, content type and content length), final store and Preparer
invocation count, with GET differing only by carrying the blob body. -/
theorem c2_get_head_agree_when_repo_present (prep : PrepFn) (st : Store) (path : String)
    (c0 : RepoTable) (hc : lookupA st (pathRepo path) = some c0) :
    handleHead prep st path =
      (stripBody (handleGet prep st path).1, (handleGet prep st path).2) := by
  unfold handleGet handleHead headServe
  simp only [hc, Option.getD_some]
  cases h1 : lookupA c0 (pathTarget path) with
  | some ma => rfl
  | none =>
    by_cases hlen : (goSplit (pathRepo path)).length < 2
    · simp [hlen, stripBody]
    · simp only [if_neg hlen]
      rcases hp : prep (hostPart0 path) (hostPart1 path) (pathTarget path) st with ⟨s1, o1⟩
      cases o1 with
      | some e => rfl
      | none =>
        cases h2 : lookupA ((lookupA s1 (pathRepo path)).getD []) (pathTarget path) with
        | some ma => simp [h2, stripBody, serveGet, serveHead]
        | none => simp [h2, stripBody]

/-- C2 witness: the amended equivalence at a concrete populated store. -/
theorem c2_witness :
    lookupA [("a/b", [("t", sampleManifest)])] (pathRepo "/v2/a/b/manifests/t") =
      some [("t", sampleManifest)] ∧
    handleHead prepNone [("a/b", [("t", sampleManifest)])] "/v2/a/b/manifests/t" =
      (stripBody (handleGet prepNone [("a/b", [("t", sampleManifest)])]
          "/v2/a/b/manifests/t").1,
       (handleGet prepNone [("a/b", [("t", sampleManifest)])] "/v2/a/b/manifests/t").2) :=
  ⟨by decide,
   c2_get_head_agree_when_repo_present prepNone [("a/b", [("t", sampleManifest)])]
     "/v2/a/b/manifests/t" [("t", sampleManifest)] (by decide)⟩

/-- C3: the claim says a tags request for a repository name with fewer than
two components and no cached entry returns 400 INVALID PARAMS without a
Preparer call.  `handleTags` has no length guard: it evaluates
`hostnameParts[1]` while building the unconditional `PrepareChart` call and
panics with an index-out-of-range, returning no response at all (the
Preparer is indeed never invoked).  The manifest handler, by contrast,
does return the documented 400 without invoking the Preparer. -/
theorem c3_tags_short_name_panics :
    Manifests.handleTags prepNone [] "GET" "/v2/solo/tags/list" "" "" = (.panic, [], 0) ∧
    Manifests.handle prepNone [] "GET" "/v2/solo/manifests/t" =
      (.err invalidParamsErr, [], 0) ∧
    Manifests.handle prepNone [] "HEAD" "/v2/solo/manifests/t" =
      (.err invalidParamsErr, [], 0) := by
  decide

/-- C4 counterexample: with one repository stored and the unparsable query
`n=abc`, the claim requires all (one) repository names to be returned
(treating the parse failure as the default 10000); the code keeps
`strconv.Atoi`'s zero return value and lists nothing. -/
theorem c4_cx_unparsable_n_lists_nothing :
    (Manifests.handleCatalog [("r1", [("t", sampleManifest)])] "GET" "abc").1 =
      .ok { status := 200, repos := [] } ∧
    ([] : List String) ≠ ["r1"] := by
  decide

/-- C4 amended: the catalog GET lists the first `max(n_eff, 0)` repository
keys of the store (hence all of them when fewer are stored), where `n_eff`
is 10000 when `n` is absent and otherwise `strconv.Atoi`'s returned value —
the parsed integer on success, 0 on a syntax error, the clamped int64
bound on a range error.  The store is never mutated. -/
theorem c4_catalog_take (st : Store) (nQ : String) :
    Manifests.handleCatalog st "GET" nQ =
      (.ok { status := 200,
             repos := (st.map Prod.fst).take
               (Int.toNat (if nQ ≠ "" then (goAtoi nQ).1 else 10000)) }, st) := by
  unfold Manifests.handleCatalog
  rw [if_pos rfl, catalogLoop_eq]
  simp

/-- C5 counterexample: tags `["a"]` with `last=z`: no stored tag exceeds
`last`, the claim requires an empty sequence, but the loop falls through
without truncating and the full tag list is returned. -/
theorem c5_cx_last_beyond_returns_all :
    (Manifests.handleTags prepNone [("a/b", [("a", sampleManifest)])]
        "GET" "/v2/a/b/tags/list" "z" "").1 =
      .ok { status := 200, name := "a/b", tags := ["a"] } ∧
    (["a"] : List String) ≠ [] := by
  decide

/-- C5 amended: with a non-empty `last`, when some stored tag is strictly
greater than `last` the response is the suffix of the sorted tag list from
the first such tag onwards; when no stored tag is strictly greater, the
sorted tag list is returned unchanged (not empty). -/
theorem c5_last_cursor (prep : PrepFn) (st : Store) (path lastQ : String) (c : RepoTable)
    (hl : lastQ ≠ "")
    (hparts : ¬ (goSplit (pathRepo path)).length < 2)
    (hprep : (prep (hostPart0 path) (hostPart1 path) "" st).2 = none)
    (hc : lookupA (prep (hostPart0 path) (hostPart1 path) "" st).1 (pathRepo path) = some c) :
    (Manifests.handleTags prep st "GET" path lastQ "").1 =
      .ok { status := 200, name := pathRepo path,
            tags := if (collectTags c).any (fun t => strLtB lastQ t)
                    then (collectTags c).dropWhile (fun t => strLeB t lastQ)
                    else collectTags c } := by
  rw [handleTags_populated prep st path lastQ "" c hparts hprep hc]
  unfold tagsPage
  rw [if_neg (by simp)]
  unfold tagsAfterLast
  rw [if_pos hl, lastCut_eq]

/-- C5 witness: the amended cursor semantics at a concrete store. -/
theorem c5_witness :
    ("b" : String) ≠ "" ∧
    (Manifests.handleTags prepNone [("w/x", [("c", sampleManifest), ("a", sampleManifest)])]
        "GET" "/v2/w/x/tags/list" "b" "").1 =
      .ok { status := 200, name := pathRepo "/v2/w/x/tags/list",
            tags := if (collectTags [("c", sampleManifest), ("a", sampleManifest)]).any
                        (fun t => strLtB "b" t)
                    then (collectTags [("c", sampleManifest), ("a", sampleManifest)]).dropWhile
                        (fun t => strLeB t "b")
                    else collectTags [("c", sampleManifest), ("a", sampleManifest)] } :=
  ⟨by decide,
   c5_last_cursor prepNone [("w/x", [("c", sampleManifest), ("a", sampleManifest)])]
     "/v2/w/x/tags/list" "b" [("c", sampleManifest), ("a", sampleManifest)]
     (by decide) (by decide) (by decide) (by decide)⟩

/-- C6 counterexample: `n=-1` parses and is less than the tag-sequence
length, but instead of "truncating to the first n entries" (a well-formed
response) the Go slice `tags[:-1]` panics. -/
theorem c6_cx_negative_n_no_response :
    (Manifests.handleTags prepNone [("p/q", [("u", sampleManifest), ("v", sampleManifest)])]
        "GET" "/v2/p/q/tags/list" "" "-1").1 = .panic := by
  decide

/-- C6 amended: on a populated repository with a non-empty `n`: an
unparsable `n` fails with 400 BAD_REQUEST; a parsed nonnegative `n` yields
the first `min(n, length)` entries of the current sequence — truncation
when `n` is below the length, the unchanged sequence otherwise (never
padded); a parsed negative `n` panics (claim C10). -/
theorem c6_n_limit (prep : PrepFn) (st : Store) (path lastQ nQ : String) (c : RepoTable)
    (hn : nQ ≠ "")
    (hparts : ¬ (goSplit (pathRepo path)).length < 2)
    (hprep : (prep (hostPart0 path) (hostPart1 path) "" st).2 = none)
    (hc : lookupA (prep (hostPart0 path) (hostPart1 path) "" st).1 (pathRepo path) = some c) :
    ((goAtoi nQ).2 = false →
      (Manifests.handleTags prep st "GET" path lastQ nQ).1 = .err badRequestErr) ∧
    (∀ n : Int, goAtoi nQ = (n, true) → 0 ≤ n →
      (Manifests.handleTags prep st "GET" path lastQ nQ).1 =
        .ok { status := 200, name := pathRepo path,
              tags := (tagsAfterLast c lastQ).take n.toNat }) := by
  rw [handleTags_populated prep st path lastQ nQ c hparts hprep hc]
  constructor
  · intro hfail
    rcases ha : goAtoi nQ with ⟨n, b⟩
    rw [ha] at hfail
    simp only at hfail
    subst hfail
    unfold tagsPage
    rw [if_pos hn]
    simp only [ha]
  · intro n ha hpos
    unfold tagsPage
    rw [if_pos hn]
    simp only [ha]
    by_cases hlt : n < ((tagsAfterLast c lastQ).length : Int)
    · rw [if_pos hlt]
      unfold goSliceTo
      rw [if_pos hpos]
    · rw [if_neg hlt]
      have htake : (tagsAfterLast c lastQ).take n.toNat = tagsAfterLast c lastQ := by
        apply List.take_of_length_le
        omega
      rw [htake]

/-- C6 witness: the amended limit semantics at a concrete store with
`n=1`. -/
theorem c6_witness :
    goAtoi "1" = (1, true) ∧ (0 : Int) ≤ 1 ∧
    (Manifests.handleTags prepNone [("p/q", [("v", sampleManifest), ("u", sampleManifest)])]
        "GET" "/v2/p/q/tags/list" "" "1").1 =
      .ok { status := 200, name := pathRepo "/v2/p/q/tags/list",
            tags := (tagsAfterLast [("v", sampleManifest), ("u", sampleManifest)] "").take
              (Int.toNat 1) } :=
  ⟨by decide, by decide,
   (c6_n_limit prepNone [("p/q", [("v", sampleManifest), ("u", sampleManifest)])]
       "/v2/p/q/tags/list" "" "1" [("v", sampleManifest), ("u", sampleManifest)]
       (by decide) (by decide) (by decide) (by decide)).2 1 (by decide) (by decide)⟩

/-- C7: a stored manifest is served identically by GET and HEAD with
status 200, the Docker-Content-Digest header recomputed from the stored
blob as `"sha256:" + hex(SHA256(blob))`, and the store left unchanged, so
an immediately repeated request yields the same digest; GET additionally
writes the blob as the body. -/
theorem c7_digest_recomputed (prep : PrepFn) (st : Store) (path : String)
    (c0 : RepoTable) (ma : GoManifest)
    (hc : lookupA st (pathRepo path) = some c0)
    (hma : lookupA c0 (pathTarget path) = some ma) :
    Manifests.handle prep st "GET" path = (.ok (serveGet ma), st, 0) ∧
    Manifests.handle prep st "HEAD" path = (.ok (serveHead ma), st, 0) ∧
    (serveGet ma).dockerContentDigest = "sha256:" ++ sha256Hex ma.blob ∧
    (serveHead ma).dockerContentDigest = "sha256:" ++ sha256Hex ma.blob ∧
    (serveGet ma).body = some ma.blob ∧
    Manifests.handle prep (Manifests.handle prep st "GET" path).2.1 "GET" path =
      Manifests.handle prep st "GET" path := by
  have hget : Manifests.handle prep st "GET" path = (.ok (serveGet ma), st, 0) := by
    unfold Manifests.handle handleGet
    rw [if_pos rfl]
    simp only [hc, hma]
  have hhead : Manifests.handle prep st "HEAD" path = (.ok (serveHead ma), st, 0) := by
    unfold Manifests.handle handleHead headServe
    rw [if_neg (by decide), if_pos rfl]
    simp only [hc, Option.getD_some, hma]
  refine ⟨hget, hhead, rfl, rfl, rfl, ?_⟩
  rw [hget]
  exact hget

/-- C7 witness: the digest contract at a concrete stored manifest. -/
theorem c7_witness :
    lookupA [("a/b", [("t", sampleManifest)])] (pathRepo "/v2/a/b/manifests/t") =
      some [("t", sampleManifest)] ∧
    lookupA [("t", sampleManifest)] (pathTarget "/v2/a/b/manifests/t") = some sampleManifest ∧
    Manifests.handle prepNone [("a/b", [("t", sampleManifest)])] "GET" "/v2/a/b/manifests/t" =
      (.ok (serveGet sampleManifest), [("a/b", [("t", sampleManifest)])], 0) ∧
    (serveGet sampleManifest).dockerContentDigest = "sha256:" ++ sha256Hex [1, 2, 3] :=
  ⟨by decide, by decide,
   (c7_digest_recomputed prepNone [("a/b", [("t", sampleManifest)])] "/v2/a/b/manifests/t"
       [("t", sampleManifest)] sampleManifest (by decide) (by decide)).1,
   by decide⟩

/-- C8: on a populated repository, the tag sequence before any pagination
is exactly the reference-table keys without the substring `"sha256:"`,
sorted ascending: the no-parameter response carries `collectTags c`, which
is ordered under the embedded string order and is a permutation of the
filtered key list. -/
theorem c8_tags_sorted_filtered (prep : PrepFn) (st : Store) (path : String) (c : RepoTable)
    (hparts : ¬ (goSplit (pathRepo path)).length < 2)
    (hprep : (prep (hostPart0 path) (hostPart1 path) "" st).2 = none)
    (hc : lookupA (prep (hostPart0 path) (hostPart1 path) "" st).1 (pathRepo path) = some c) :
    (Manifests.handleTags prep st "GET" path "" "").1 =
      .ok { status := 200, name := pathRepo path, tags := collectTags c } ∧
    (collectTags c).Pairwise (fun a b => strLeB a b = true) ∧
    (collectTags c).Perm
      ((c.map Prod.fst).filter (fun t => !(strContains t "sha256:"))) := by
  refine ⟨?_, sortStrings_pairwise _, sortStrings_perm _⟩
  rw [handleTags_populated prep st path "" "" c hparts hprep hc]
  unfold tagsPage
  rw [if_neg (by simp)]
  unfold tagsAfterLast
  rw [if_neg (by simp)]

/-- C8 witness: the sorted filtered tag list at a concrete store holding
two tags and a digest key. -/
theorem c8_witness :
    (Manifests.handleTags prepNone
        [("m/n", [("beta", sampleManifest), ("sha256:feed", sampleManifest),
                  ("alpha", sampleManifest)])]
        "GET" "/v2/m/n/tags/list" "" "").1 =
      .ok { status := 200, name := pathRepo "/v2/m/n/tags/list",
            tags := collectTags [("beta", sampleManifest), ("sha256:feed", sampleManifest),
              ("alpha", sampleManifest)] } ∧
    (collectTags [("beta", sampleManifest), ("sha256:feed", sampleManifest),
        ("alpha", sampleManifest)]).Pairwise (fun a b => strLeB a b = true) ∧
    (collectTags [("beta", sampleManifest), ("sha256:feed", sampleManifest),
        ("alpha", sampleManifest)]).Perm
      (([("beta", sampleManifest), ("sha256:feed", sampleManifest),
         ("alpha", sampleManifest)].map Prod.fst).filter
        (fun t => !(strContains t "sha256:"))) :=
  c8_tags_sorted_filtered prepNone
    [("m/n", [("beta", sampleManifest), ("sha256:feed", sampleManifest),
              ("alpha", sampleManifest)])]
    "/v2/m/n/tags/list"
    [("beta", sampleManifest), ("sha256:feed", sampleManifest), ("alpha", sampleManifest)]
    (by decide) (by decide) (by decide)

/-- C9: any method other than GET or HEAD on the manifest endpoint, and
any method other than GET on the tags or catalog endpoint, yields the 400
METHOD_UNKNOWN error with the store unchanged and no Preparer call. -/
theorem c9_method_unknown (prep : PrepFn) (st : Store) (path lastQ nQ m : String) :
    (m ≠ "GET" → m ≠ "HEAD" →
      Manifests.handle prep st m path = (.err methodUnknownErr, st, 0)) ∧
    (m ≠ "GET" →
      Manifests.handleTags prep st m path lastQ nQ = (.err methodUnknownErr, st, 0) ∧
      Manifests.handleCatalog st m nQ = (.err methodUnknownErr, st)) := by
  constructor
  · intro h1 h2
    unfold Manifests.handle
    rw [if_neg h1, if_neg h2]
  · intro h1
    constructor
    · unfold Manifests.handleTags
      rw [if_neg h1]
    · unfold Manifests.handleCatalog
      rw [if_neg h1]

/-- C9 witness: a DELETE to each endpoint is rejected with the store
untouched. -/
theorem c9_witness :
    Manifests.handle prepNone [] "DELETE" "/v2/a/b/manifests/t" =
      (.err methodUnknownErr, [], 0) ∧
    Manifests.handleTags prepNone [] "DELETE" "/v2/a/b/tags/list" "" "" =
      (.err methodUnknownErr, [], 0) ∧
    Manifests.handleCatalog [] "DELETE" "" = (.err methodUnknownErr, []) :=
  ⟨(c9_method_unknown prepNone [] "/v2/a/b/manifests/t" "" "" "DELETE").1
     (by decide) (by decide),
   ((c9_method_unknown prepNone [] "/v2/a/b/tags/list" "" "" "DELETE").2 (by decide)).1,
   ((c9_method_unknown prepNone [] "/v2/a/b/tags/list" "" "" "DELETE").2 (by decide)).2⟩

/-- C10: when the `n` query parameter of a tags GET parses to a negative
integer, the guard `n < len(tags)` always holds and the slice `tags[:n]` is
out of range: whenever the handler reaches the truncation step (populated
repository after a successful Preparer call) it panics, and on no path does
it return a well-formed 200 response. -/
theorem c10_negative_n_not_total (prep : PrepFn) (st : Store) (path lastQ nQ : String)
    (n : Int) (hn : goAtoi nQ = (n, true)) (hneg : n < 0) :
    (∀ r, (Manifests.handleTags prep st "GET" path lastQ nQ).1 ≠ TOutcome.ok r) ∧
    (∀ c : RepoTable,
      ¬ (goSplit (pathRepo path)).length < 2 →
      (prep (hostPart0 path) (hostPart1 path) "" st).2 = none →
      lookupA (prep (hostPart0 path) (hostPart1 path) "" st).1 (pathRepo path) = some c →
      (Manifests.handleTags prep st "GET" path lastQ nQ).1 = .panic) := by
  have hnQ : nQ ≠ "" := by
    intro he
    rw [he] at hn
    exact Bool.noConfusion (show (false : Bool) = true from congrArg Prod.snd hn)
  have hpanic : ∀ (c : RepoTable) (s1 : Store) (k : Nat),
      tagsPage (pathRepo path) c lastQ nQ s1 k = (.panic, s1, k) := by
    intro c s1 k
    unfold tagsPage
    rw [if_pos hnQ]
    simp only [hn]
    have hlt : n < ((tagsAfterLast c lastQ).length : Int) := by omega
    rw [if_pos hlt]
    unfold goSliceTo
    rw [if_neg (by omega)]
  constructor
  · intro r
    unfold Manifests.handleTags
    rw [if_pos rfl]
    by_cases hlen : (goSplit (pathRepo path)).length < 2
    · rw [if_pos hlen]
      simp
    · rw [if_neg hlen]
      rcases hp : prep (hostPart0 path) (hostPart1 path) "" st with ⟨s1, o1⟩
      cases o1 with
      | some e => simp
      | none =>
        cases h2 : lookupA s1 (pathRepo path) with
        | none => simp [h2]
        | some c => simp [h2, hpanic]
  · intro c hlen hp2 hc2
    rw [handleTags_populated prep st path lastQ nQ c hlen hp2 hc2, hpanic]

/-- C10 witness: the panic on a concrete populated store with `n=-2`. -/
theorem c10_witness :
    goAtoi "-2" = (-2, true) ∧ ((-2 : Int) < 0) ∧
    (Manifests.handleTags prepNone [("x/y", [("t", sampleManifest)])]
        "GET" "/v2/x/y/tags/list" "" "-2").1 = .panic :=
  ⟨by decide, by decide,
   (c10_negative_n_not_total prepNone [("x/y", [("t", sampleManifest)])]
       "/v2/x/y/tags/list" "" "-2" (-2) (by decide) (by decide)).2
     [("t", sampleManifest)] (by decide) (by decide) (by decide)⟩

end HelmOciProxy
